import Mathlib

/-!
Shallow embedding of `src/MyPromise/index.js` (a Promise/deferred-value
implementation) and proofs about the specification claims.

The JavaScript class `MyPromise` keeps three instance fields: `_state`,
`_result` and `_handlerQueue`.  A handler queue drain never writes the owning
instance's `_state`/`_result` (it only schedules tasks that settle *other*
promises through their own callbacks), so the state/result fragment of an
instance is embedded as the structure `Core` below, and handler execution is
embedded separately as pure functions from the owning promise's settled state
to the effect on the downstream promise.
-/

/-- JavaScript runtime type tags, as returned by the typeof operator. -/
inductive JSType where
  | undefinedT
  | booleanT
  | numberT
  | stringT
  | objectT
  | functionT
deriving DecidableEq, Repr

/-- JavaScript values, as far as this module inspects them: `isPromise`
looks at truthiness, typeof, and the callability of the value's `then`
property, so objects and functions carry a property list. -/
inductive JSVal where
  | undefined
  | null
  | boolean (b : Bool)
  | number (n : Int)
  | string (s : String)
  | array (elems : List JSVal)
  | object (props : List (String × JSVal))
  | function (props : List (String × JSVal))

/-- typeof: note that typeof null and typeof of an array are both object,
while typeof of a function is function. -/
def jsTypeof : JSVal → JSType
  | .undefined => .undefinedT
  | .null => .objectT
  | .boolean _ => .booleanT
  | .number _ => .numberT
  | .string _ => .stringT
  | .array _ => .objectT
  | .object _ => .objectT
  | .function _ => .functionT

/-- Boolean(v): JavaScript truthiness (NaN is not modelled; numbers are Int). -/
def toBoolean : JSVal → Bool
  | .undefined => false
  | .null => false
  | .boolean b => b
  | .number n => n != 0
  | .string s => s != ""
  | .array _ => true
  | .object _ => true
  | .function _ => true

/-- Property lookup in a property list; absent properties read as undefined. -/
def lookupProp : List (String × JSVal) → String → JSVal
  | [], _ => .undefined
  | (k, v) :: rest, name => if k = name then v else lookupProp rest name

/-- Property access v[name]; only objects and functions carry properties. -/
def getProp : JSVal → String → JSVal
  | .object props, name => lookupProp props name
  | .function props, name => lookupProp props name
  | _, _ => .undefined

/-- Whether typeof v is function (i.e. v is callable). -/
def jsIsCallable (v : JSVal) : Bool :=
  match v with
  | .function _ => true
  | _ => false

/-- Whether v exposes a callable then property (the structural
deferred-value-like capability). -/
def hasCallableThen (v : JSVal) : Bool :=
  jsIsCallable (getProp v "then")

/-- Whether typeof v is object. -/
def typeofIsObject (v : JSVal) : Bool :=
  match jsTypeof v with
  | .objectT => true
  | _ => false

/-- Embedding of the source function `isPromise(object)`:
`Boolean(object) && typeof object === 'object' && typeof object.then === 'function'`. -/
def isPromise (v : JSVal) : Bool :=
  toBoolean v && typeofIsObject v && hasCallableThen v

/-- The three promise states: the PENDING / FULFILLED / REJECTED constants. -/
inductive PState where
  | pending
  | fulfilled
  | rejected
deriving DecidableEq, Repr

/-- The state/result fragment of a MyPromise instance (fields `_state` and
`_result`).  The handler queue is modelled separately: draining it never
touches the owning instance's state or result. -/
structure Core where
  state : PState
  result : JSVal

/-- A freshly constructed MyPromise: `_state = PENDING`, `_result = undefined`. -/
def initCore : Core :=
  { state := .pending, result := .undefined }

/-- Embedding of `MyPromise._changeState(state, result)`: if the state is not
PENDING the call returns without any effect; otherwise state and result are
assigned.  (The subsequent `_executeHandlers()` call drains the queue but does
not write `_state`/`_result`, so it does not appear in this fragment.) -/
def changeState (c : Core) (s : PState) (r : JSVal) : Core :=
  if c.state ≠ PState.pending then c
  else { state := s, result := r }

/-- Embedding of `MyPromise._resolve(value)`: `_changeState(FULFILLED, value)`. -/
def resolveP (c : Core) (v : JSVal) : Core :=
  changeState c PState.fulfilled v

/-- Embedding of `MyPromise._reject(reason)`: `_changeState(REJECTED, reason)`. -/
def rejectP (c : Core) (r : JSVal) : Core :=
  changeState c PState.rejected r

/-- One external settlement call on a promise: `_resolve(v)` or `_reject(r)`. -/
inductive SettleCall where
  | complete (v : JSVal)
  | fail (r : JSVal)

/-- Apply a single settlement call to a promise core. -/
def applyCall (c : Core) : SettleCall → Core
  | .complete v => resolveP c v
  | .fail r => rejectP c r

/-- Apply a sequence of settlement calls, in order. -/
def applyCalls (c : Core) (calls : List SettleCall) : Core :=
  calls.foldl applyCall c

/-- Outcome of calling a user-supplied JavaScript function with one argument:
it either returns a value normally or raises one. -/
inductive ExecResult where
  | ret (v : JSVal)
  | thrown (e : JSVal)

/-- Effect a scheduled handler task has on the downstream promise created by
`then`: nothing (the record's interest state does not match), a call to the
downstream resolve, a call to the downstream reject, or adoption of a
thenable (`result.then(resolve, reject)`), which settles the downstream only
when the thenable settles. -/
inductive DownstreamAct where
  | skip
  | complete (v : JSVal)
  | fail (r : JSVal)
  | adopt (v : JSVal)

/-- Embedding of the scheduled body of `MyPromise._executeCurrentHandler`.
Arguments: the owning promise's settled state and result at run time, the
handler record's stored continuation (`executor`, absent when `then` was
given a non-function) and its interest state (`state`).  The body: return if
the interest state differs from the owner's state; if the continuation is
absent, forward (`resolve(this._result)` on FULFILLED else
`reject(this._result)`); otherwise call the continuation with the result —
a thenable return value is adopted, a plain return value resolves the
downstream, a raise rejects the downstream. -/
def executeCurrentHandler (pstate : PState) (presult : JSVal)
    (executor : Option (JSVal → ExecResult)) (interest : PState) :
    DownstreamAct :=
  if interest ≠ pstate then .skip
  else
    match executor with
    | none =>
      if pstate = PState.fulfilled then .complete presult else .fail presult
    | some f =>
      match f presult with
      | .ret r => if isPromise r then .adopt r else .complete r
      | .thrown e => .fail e

/-- Apply a handler task's downstream effect to the downstream promise's
core.  Adoption leaves the downstream pending here: it settles later,
through the adopted thenable's own settlement. -/
def applyDownstreamAct (c : Core) : DownstreamAct → Core
  | .skip => c
  | .complete v => resolveP c v
  | .fail r => rejectP c r
  | .adopt _ => c

/-- Net effect on the downstream promise of draining the two handler records
pushed by `then(onfulfilled, onrejected)` (one with interest FULFILLED, one
with interest REJECTED, pushed in that order), once the source promise has
settled with state `pstate` and result `presult`. -/
def runThenHandlers (pstate : PState) (presult : JSVal)
    (onf onr : Option (JSVal → ExecResult)) (down : Core) : Core :=
  applyDownstreamAct
    (applyDownstreamAct down (executeCurrentHandler pstate presult onf PState.fulfilled))
    (executeCurrentHandler pstate presult onr PState.rejected)

/-- One observable action an executor performs on the promise it initialises:
a call to the resolve callback or a call to the reject callback. -/
inductive ExecutorStep where
  | callResolve (v : JSVal)
  | callReject (r : JSVal)

/-- Apply one executor action through the bound `_resolve`/`_reject`. -/
def applyStep (c : Core) : ExecutorStep → Core
  | .callResolve v => resolveP c v
  | .callReject r => rejectP c r

/-- Trace of one executor invocation: the settlement calls it performs, in
order, and — when it raises — the value raised (after which it performs no
further calls). -/
structure ExecutorRun where
  steps : List ExecutorStep
  raised : Option JSVal

/-- Embedding of the `MyPromise` constructor body: start PENDING with
undefined result, run the executor with the bound resolve/reject, and if the
executor raises, catch the error and call `_reject(error)`.  The function is
total: the raise never propagates to the caller of the constructor. -/
def construct (ex : ExecutorRun) : Core :=
  let c := ex.steps.foldl applyStep initCore
  match ex.raised with
  | none => c
  | some e => rejectP c e

/-- Model of the `onfinally` argument of `finally`: the source guards each
call with a typeof check, so the argument is either not a function or a
callable whose invocation returns or raises. -/
inductive FinallyArg where
  | notFn
  | fn (run : Unit → ExecResult)

/-- Embedding of the first wrapper `finally` passes to `then`:
run `onfinally()` when callable, then `return value` — the wrapper's result
is the original fulfillment value, whatever `onfinally` returned.  A raise
inside `onfinally` propagates out of the wrapper. -/
def finallyOnFulfilled (onfinally : FinallyArg) (value : JSVal) : ExecResult :=
  match onfinally with
  | .notFn => .ret value
  | .fn run =>
    match run () with
    | .ret _ => .ret value
    | .thrown e => .thrown e

/-- Embedding of the second wrapper `finally` passes to `then`:
run `onfinally()` when callable, then `throw reason` — the original
rejection reason is re-raised, whatever `onfinally` returned. -/
def finallyOnRejected (onfinally : FinallyArg) (reason : JSVal) : ExecResult :=
  match onfinally with
  | .notFn => .thrown reason
  | .fn run =>
    match run () with
    | .ret _ => .thrown reason
    | .thrown e => .thrown e

/-- Immediate, synchronous effect of the executor of `MyPromise.all` on the
returned promise: with an empty input array it calls `resolve()` — that is,
resolve with the undefined value — and returns; with a non-empty array it
only subscribes to each wrapped item (via `MyPromise.resolve(item).then`),
which settles nothing synchronously, so the promise is still pending when
`all` returns. -/
def allImmediate (promiseQueue : List JSVal) : Core :=
  if promiseQueue.length = 0 then resolveP initCore JSVal.undefined
  else initCore

/-- Immediate, synchronous effect of `MyPromise.allSettled`: map each input
to the promise returned by a descriptor-producing `then` (each such promise
is an object exposing a callable then), then delegate to `MyPromise.all`
over the mapped array. -/
def allSettledImmediate (promiseQueue : List JSVal) : Core :=
  allImmediate
    (promiseQueue.map fun _ => JSVal.object [("then", JSVal.function [])])

/-- Eventual outcome of one wrapped input of `race`: the wrapped item's
settlement, delivered to the aggregate through
`MyPromise.resolve(item).then(resolve, reject)`. -/
inductive Outcome where
  | fulfilledO (v : JSVal)
  | rejectedO (r : JSVal)

/-- State of the system around a `race` aggregate: the aggregate promise's
core, and the subscriptions not yet delivered — the executor of `race`
creates exactly one subscription per input item and hands the aggregate's
resolve/reject to nothing else. -/
structure RaceSystem where
  agg : Core
  subs : List Outcome

/-- System state right after `MyPromise.race` returns: the aggregate is a
fresh pending promise and each input item contributes one subscription. -/
def raceInit (outcomes : List Outcome) : RaceSystem :=
  { agg := initCore, subs := outcomes }

/-- Deliver one wrapped item's settlement to the aggregate's callbacks. -/
def deliverOutcome (c : Core) : Outcome → Core
  | .fulfilledO v => resolveP c v
  | .rejectedO r => rejectP c r

/-- One execution step: subscription `i` (if it exists) fires, settling the
aggregate through the callbacks it holds, and is consumed.  Any other step
of the host program leaves the aggregate untouched, since nothing else
references its resolve/reject. -/
def raceStep (sys : RaceSystem) (i : Nat) : RaceSystem :=
  match sys.subs.get? i with
  | none => sys
  | some o => { agg := deliverOutcome sys.agg o, subs := sys.subs.eraseIdx i }

/-- Run an arbitrary continuation of execution, given as the sequence of
subscription firings it contains. -/
def raceRun (sys : RaceSystem) (trace : List Nat) : RaceSystem :=
  trace.foldl raceStep sys

/-! ## Helper lemmas -/

/-- A settled promise ignores any single further settlement call. -/
theorem applyCall_settled (c : Core) (h : c.state ≠ PState.pending)
    (k : SettleCall) : applyCall c k = c := by
  cases k <;> simp [applyCall, resolveP, rejectP, changeState, h]

/-- A settled promise ignores any further sequence of settlement calls. -/
theorem applyCalls_settled (c : Core) (h : c.state ≠ PState.pending) :
    ∀ calls : List SettleCall, applyCalls c calls = c := by
  intro calls
  induction calls with
  | nil => rfl
  | cons k rest ih =>
    show applyCalls (applyCall c k) rest = c
    rw [applyCall_settled c h k]
    exact ih

/-! ## Claim theorems -/

/-- C1, counterexample: completing a pending promise with a
deferred-value-like value (an object exposing a callable then) transitions it
immediately to FULFILLED with that object itself stored as the result — no
adoption of the thenable's settlement takes place in `_resolve`. -/
theorem resolve_thenable_counterexample :
    isPromise (JSVal.object [("then", JSVal.function [])]) = true
    ∧ resolveP initCore (JSVal.object [("then", JSVal.function [])])
        = { state := PState.fulfilled,
            result := JSVal.object [("then", JSVal.function [])] } :=
  ⟨rfl, rfl⟩

/-- C1, amended claim: for every pending promise, calling complete with a
deferred-value-like value transitions it immediately to FULFILLED with the
deferred-value-like object itself stored as the result; `complete` performs
no adoption. -/
theorem resolve_thenable_amended (c : Core) (v : JSVal)
    (hc : c.state = PState.pending) (_hv : isPromise v = true) :
    resolveP c v = { state := PState.fulfilled, result := v } := by
  simp [resolveP, changeState, hc]

/-- Witness for the amended C1 theorem at a concrete pending core and a
concrete thenable. -/
theorem resolve_thenable_amended_witness :
    initCore.state = PState.pending
    ∧ isPromise (JSVal.object [("t", JSVal.undefined), ("then", JSVal.function [])]) = true
    ∧ resolveP initCore (JSVal.object [("t", JSVal.undefined), ("then", JSVal.function [])])
        = { state := PState.fulfilled,
            result := JSVal.object [("t", JSVal.undefined), ("then", JSVal.function [])] } :=
  ⟨rfl, rfl, resolve_thenable_amended initCore _ rfl rfl⟩

/-- C2: evaluating the empty-input path of `MyPromise.all` — the source calls
`resolve()` and the returned promise fulfills with the undefined value, which
is not the empty array the claim (and the canonical contract adopted by the
spec) requires. -/
theorem all_empty_fulfills_undefined :
    allImmediate [] = { state := PState.fulfilled, result := JSVal.undefined }
    ∧ JSVal.undefined ≠ JSVal.array [] :=
  ⟨rfl, fun h => JSVal.noConfusion h⟩

/-- C3: for every promise and every sequence of complete/fail calls on it,
the first call on a pending promise settles it; afterwards every further
sequence of complete/fail calls leaves state and result unchanged, so every
read of the result after settlement returns the same value. -/
theorem settle_first_call_wins (c : Core) (hc : c.state = PState.pending)
    (k : SettleCall) (rest more : List SettleCall) :
    (applyCall c k).state ≠ PState.pending
    ∧ applyCalls (applyCall c k) more = applyCall c k
    ∧ applyCalls c (k :: rest) = applyCall c k := by
  have hset : (applyCall c k).state ≠ PState.pending := by
    cases k <;> simp [applyCall, resolveP, rejectP, changeState, hc]
  refine ⟨hset, applyCalls_settled _ hset more, ?_⟩
  show applyCalls (applyCall c k) rest = applyCall c k
  exact applyCalls_settled _ hset rest

/-- Witness for C3 on a fresh promise: first a complete, then further fail
and complete calls, all of which are no-ops. -/
theorem settle_first_call_wins_witness :
    initCore.state = PState.pending
    ∧ ((applyCall initCore (SettleCall.complete (JSVal.number 5))).state ≠ PState.pending
       ∧ applyCalls (applyCall initCore (SettleCall.complete (JSVal.number 5)))
           [SettleCall.fail (JSVal.string "x"), SettleCall.complete (JSVal.number 9)]
           = applyCall initCore (SettleCall.complete (JSVal.number 5))
       ∧ applyCalls initCore
           (SettleCall.complete (JSVal.number 5) :: [SettleCall.fail (JSVal.string "x")])
           = applyCall initCore (SettleCall.complete (JSVal.number 5))) :=
  ⟨rfl, settle_first_call_wins initCore rfl (SettleCall.complete (JSVal.number 5))
    [SettleCall.fail (JSVal.string "x")]
    [SettleCall.fail (JSVal.string "x"), SettleCall.complete (JSVal.number 9)]⟩

/-- C4, counterexample: an initializer that calls resolve(1) and then raises
"boom" yields a FULFILLED promise with result 1, not a REJECTED one — the
earlier settlement wins over the caught raise. -/
theorem create_resolve_then_throw_counterexample :
    (construct { steps := [ExecutorStep.callResolve (JSVal.number 1)],
                 raised := some (JSVal.string "boom") }).state = PState.fulfilled
    ∧ (construct { steps := [ExecutorStep.callResolve (JSVal.number 1)],
                   raised := some (JSVal.string "boom") }).state ≠ PState.rejected
    ∧ (construct { steps := [ExecutorStep.callResolve (JSVal.number 1)],
                   raised := some (JSVal.string "boom") }).result = JSVal.number 1 :=
  ⟨rfl, by decide, rfl⟩

/-- C4, amended claim: for every initializer that raises, the raise is
captured by `create` (the constructor is total, so nothing propagates to the
caller), and when the initializer had not settled the promise before
raising, the promise is REJECTED with the raised error as its reason. -/
theorem create_raise_rejects_unsettled (steps : List ExecutorStep) (e : JSVal)
    (h : (steps.foldl applyStep initCore).state = PState.pending) :
    construct { steps := steps, raised := some e }
      = { state := PState.rejected, result := e } := by
  show rejectP (steps.foldl applyStep initCore) e = _
  simp [rejectP, changeState, h]

/-- Witness for the amended C4 theorem: an initializer that raises "boom"
without settling first yields a promise rejected with "boom". -/
theorem create_raise_rejects_unsettled_witness :
    (([] : List ExecutorStep).foldl applyStep initCore).state = PState.pending
    ∧ construct { steps := [], raised := some (JSVal.string "boom") }
        = { state := PState.rejected, result := JSVal.string "boom" } :=
  ⟨rfl, create_raise_rejects_unsettled [] (JSVal.string "boom") rfl⟩

/-- C5: a continuation attached via `then` that raises during drain makes the
downstream promise REJECTED with the raised error as its reason — whether it
is the fulfillment continuation of a fulfilled source or the rejection
continuation of a rejected source — and the embedding of the drain is a
total function, so no raise escapes at the call site of `then`. -/
theorem thrown_continuation_rejects_downstream
    (f : JSVal → ExecResult) (r e : JSVal) (down : Core)
    (onf onr : Option (JSVal → ExecResult))
    (hf : f r = ExecResult.thrown e) (hd : down.state = PState.pending) :
    runThenHandlers PState.fulfilled r (some f) onr down
      = { state := PState.rejected, result := e }
    ∧ runThenHandlers PState.rejected r onf (some f) down
      = { state := PState.rejected, result := e } := by
  constructor <;>
    simp [runThenHandlers, executeCurrentHandler, hf, applyDownstreamAct,
      rejectP, changeState, hd]

/-- Witness for C5: a continuation that raises "boom" on a source settled
with 1, in both interest positions. -/
theorem thrown_continuation_rejects_downstream_witness :
    ((fun _ : JSVal => ExecResult.thrown (JSVal.string "boom")) (JSVal.number 1)
        = ExecResult.thrown (JSVal.string "boom"))
    ∧ initCore.state = PState.pending
    ∧ (runThenHandlers PState.fulfilled (JSVal.number 1)
          (some fun _ => ExecResult.thrown (JSVal.string "boom")) none initCore
          = { state := PState.rejected, result := JSVal.string "boom" }
       ∧ runThenHandlers PState.rejected (JSVal.number 1)
          none (some fun _ => ExecResult.thrown (JSVal.string "boom")) initCore
          = { state := PState.rejected, result := JSVal.string "boom" }) :=
  ⟨rfl, rfl,
    thrown_continuation_rejects_downstream
      (fun _ => ExecResult.thrown (JSVal.string "boom"))
      (JSVal.number 1) (JSVal.string "boom") initCore none none rfl rfl⟩

/-- C6: `then` with no continuations on a settled source forwards the
settlement verbatim to the downstream promise: a fulfilled source yields a
downstream fulfilled with the same value, and a rejected source yields a
downstream rejected with the same reason. -/
theorem then_no_continuations_forwards (r : JSVal) (down : Core)
    (hd : down.state = PState.pending) :
    runThenHandlers PState.fulfilled r none none down
      = { state := PState.fulfilled, result := r }
    ∧ runThenHandlers PState.rejected r none none down
      = { state := PState.rejected, result := r } := by
  constructor <;>
    simp [runThenHandlers, executeCurrentHandler, applyDownstreamAct,
      resolveP, rejectP, changeState, hd]

/-- Witness for C6 at the value 3 and a fresh downstream promise. -/
theorem then_no_continuations_forwards_witness :
    initCore.state = PState.pending
    ∧ (runThenHandlers PState.fulfilled (JSVal.number 3) none none initCore
         = { state := PState.fulfilled, result := JSVal.number 3 }
       ∧ runThenHandlers PState.rejected (JSVal.number 3) none none initCore
         = { state := PState.rejected, result := JSVal.number 3 }) :=
  ⟨rfl, then_no_continuations_forwards (JSVal.number 3) initCore rfl⟩

/-- C7, counterexample: a function value carrying a callable then property
exposes the chaining capability but `isPromise` returns false on it, because
the check requires typeof to be object — so the capability check is not
independent of the value's concrete kind. -/
theorem isPromise_function_counterexample :
    hasCallableThen (JSVal.function [("then", JSVal.function [])]) = true
    ∧ isPromise (JSVal.function [("then", JSVal.function [])]) = false :=
  ⟨rfl, rfl⟩

/-- C7, amended claim: the capability check treats as adoptable the truthy
values of object typeof that expose a callable then — any plain object with
a callable then is adoptable — but a function carrying a callable then is
never treated as adoptable. -/
theorem isPromise_amended (oprops fprops : List (String × JSVal))
    (ho : hasCallableThen (JSVal.object oprops) = true) :
    isPromise (JSVal.object oprops) = true
    ∧ isPromise (JSVal.function fprops) = false := by
  constructor <;>
    simp [isPromise, toBoolean, typeofIsObject, jsTypeof, ho]

/-- Witness for the amended C7 theorem on a concrete object and a concrete
function, both carrying a callable then. -/
theorem isPromise_amended_witness :
    hasCallableThen (JSVal.object [("then", JSVal.function [])]) = true
    ∧ (isPromise (JSVal.object [("then", JSVal.function [])]) = true
       ∧ isPromise (JSVal.function [("x", JSVal.null), ("then", JSVal.function [])]) = false) :=
  ⟨rfl, isPromise_amended [("then", JSVal.function [])]
    [("x", JSVal.null), ("then", JSVal.function [])] rfl⟩

/-- C8: `race` on an empty input sequence subscribes nothing to the
aggregate's completion callbacks, so under every continuation of execution
(every trace of subscription firings) the aggregate stays exactly the fresh
pending promise: it never settles. -/
theorem race_empty_never_settles (trace : List Nat) :
    raceRun (raceInit []) trace = raceInit []
    ∧ (raceRun (raceInit []) trace).agg.state = PState.pending := by
  have h : raceRun (raceInit []) trace = raceInit [] := by
    induction trace with
    | nil => rfl
    | cons i rest ih =>
      show raceRun (raceStep (raceInit []) i) rest = raceInit []
      have hstep : raceStep (raceInit []) i = raceInit [] := by
        cases i <;> rfl
      rw [hstep]
      exact ih
  exact ⟨h, by rw [h]; rfl⟩

/-- C9: the value returned by the `onfinally` callback is discarded
entirely: whenever `onfinally` returns normally — whatever value it returns,
a thenable included — the fulfillment wrapper of `finally` returns the
original value and the rejection wrapper re-raises the original reason. -/
theorem finally_discards_callback_result
    (run : Unit → ExecResult) (retv v reason : JSVal)
    (h : run () = ExecResult.ret retv) :
    finallyOnFulfilled (FinallyArg.fn run) v = ExecResult.ret v
    ∧ finallyOnRejected (FinallyArg.fn run) reason = ExecResult.thrown reason := by
  constructor <;> simp [finallyOnFulfilled, finallyOnRejected, h]

/-- Witness for C9: an `onfinally` returning a deferred-value-like object;
the wrappers still pass the original value through and re-raise the original
reason. -/
theorem finally_discards_callback_result_witness :
    isPromise (JSVal.object [("then", JSVal.function [("f", JSVal.undefined)])]) = true
    ∧ ((fun _ : Unit => ExecResult.ret (JSVal.object [("then", JSVal.function [("f", JSVal.undefined)])])) ()
        = ExecResult.ret (JSVal.object [("then", JSVal.function [("f", JSVal.undefined)])]))
    ∧ (finallyOnFulfilled
         (FinallyArg.fn fun _ => ExecResult.ret (JSVal.object [("then", JSVal.function [("f", JSVal.undefined)])]))
         (JSVal.number 7) = ExecResult.ret (JSVal.number 7)
       ∧ finallyOnRejected
         (FinallyArg.fn fun _ => ExecResult.ret (JSVal.object [("then", JSVal.function [("f", JSVal.undefined)])]))
         (JSVal.string "err") = ExecResult.thrown (JSVal.string "err")) :=
  ⟨rfl, rfl,
    finally_discards_callback_result
      (fun _ => ExecResult.ret (JSVal.object [("then", JSVal.function [("f", JSVal.undefined)])]))
      (JSVal.object [("then", JSVal.function [("f", JSVal.undefined)])])
      (JSVal.number 7) (JSVal.string "err") rfl⟩

/-- C10: `allSettled` on an empty input maps it to an empty queue and
delegates to `all`, whose empty-input path calls `resolve()` — so the
returned promise fulfills with the undefined value, not with an empty
ordered sequence of descriptors. -/
theorem allSettled_empty_fulfills_undefined :
    allSettledImmediate [] = { state := PState.fulfilled, result := JSVal.undefined }
    ∧ JSVal.undefined ≠ JSVal.array [] :=
  ⟨rfl, fun h => JSVal.noConfusion h⟩
